import Mathlib

/-!
Verification development for the wikiextractor cirrus extractor
(cirrusextractor.py and its older twin cirrus-extract.py).

The Python source is shallowly embedded: strings are Lean `String`s
(processed as `List Char`), the regex substitutions used by the code are
modelled by dedicated recursive functions that implement the semantics of
the concrete patterns appearing in the source, JSON values decoded by
json.loads are modelled by the inductive type `J`, and the read loop of
`process_dump` is modelled by `pdLoop` over a list of input lines.
-/

/-- The apostrophe character (code point 39). -/
def apos : Char := Char.ofNat 39

/-- Characters matched by the regex class in title_to_filename, namely
`re.sub` with class space, no-break space, slash, comma, question mark,
exclamation mark, parentheses, semicolon, colon, apostrophe, and square
brackets (the exact bytes of the source: U+0020 and U+00A0 plus the listed
punctuation). -/
def isTitleSep (c : Char) : Bool :=
  c == ' ' || c == Char.ofNat 0xA0 || c == '/' || c == ',' || c == '?' ||
  c == '!' || c == '(' || c == ')' || c == ';' || c == ':' || c == apos ||
  c == '[' || c == ']'

/-- Characters matched by Python regex `\s` on str patterns: ASCII
whitespace, the separator control characters U+001C..U+001F, and the
Unicode whitespace code points. -/
def isSpacePy (c : Char) : Bool :=
  let n := c.toNat
  (9 ≤ n && n ≤ 13) || n == 32 || (28 ≤ n && n ≤ 31) || n == 0x85 ||
  n == 0xA0 || n == 0x1680 || (0x2000 ≤ n && n ≤ 0x200A) || n == 0x2028 ||
  n == 0x2029 || n == 0x202F || n == 0x205F || n == 0x3000

/-- Characters matched by Python regex `\w`, restricted to the ASCII plus
Latin-1 range used by this repository (letters, digits, underscore).  All
inputs appearing in the claims are ASCII. -/
def isWordPy (c : Char) : Bool :=
  c.isAlphanum || c == Char.ofNat 95

/-- Python str.lower restricted to code points below U+0100, which covers
every character handled in this development: ASCII A-Z and the Latin-1
uppercase letters (U+00C0..U+00DE except the multiplication sign) map to
their lowercase forms 32 code points higher; anything else is unchanged. -/
def charLowerPy (c : Char) : Char :=
  let n := c.toNat
  if 65 ≤ n && n ≤ 90 then Char.ofNat (n + 32)
  else if 0xC0 ≤ n && n ≤ 0xDE && n != 0xD7 then Char.ofNat (n + 32)
  else c

/-- Model of `re.sub` with pattern "a character class repeated one or more
times" and replacement "-": every maximal run of class characters becomes a
single hyphen.  The Boolean argument records whether the scan is currently
inside a run (Python finds the leftmost longest run and continues after
it). -/
def replRunsAux (S : Char → Bool) : Bool → List Char → List Char
  | _, [] => []
  | inRun, c :: cs =>
    if S c then
      if inRun then replRunsAux S true cs
      else '-' :: replRunsAux S true cs
    else c :: replRunsAux S false cs

/-- Model of Python `re.sub` with pattern "hyphen followed by the dollar
anchor" and empty replacement.  Without MULTILINE, the dollar anchor
matches at the end of the string and also just before a newline that ends
the string, so the substitution removes a hyphen that is the last
character, or a hyphen immediately before a final newline. -/
def pySubDashEnd : List Char → List Char
  | [] => []
  | ['-'] => []
  | ['-', '\n'] => ['\n']
  | c :: rest => c :: pySubDashEnd rest

/-- title_to_filename from cirrusextractor.py (identical in
cirrus-extract.py): replace runs of separator characters by a hyphen,
collapse runs of hyphens, strip a hyphen matched by the end anchor,
lowercase, and append the txt extension. -/
def title_to_filename (title : String) : String :=
  let t1 := replRunsAux isTitleSep false title.data
  let t2 := replRunsAux (fun c => c == '-') false t1
  let t3 := pySubDashEnd t2
  String.mk (t3.map charLowerPy) ++ ".txt"

/-- Replace every maximal run of class characters with a single hyphen,
written as a left fold carrying the reversed output and an in-run flag.
This is an independent implementation of step 1 of the sanitizer as the
spec describes it, used to state the refinement claims about
title_to_filename. -/
def specSquash (S : Char → Bool) (cs : List Char) : List Char :=
  ((cs.foldl
      (fun (p : List Char × Bool) c =>
        if S c then (if p.2 then p.1 else '-' :: p.1, true)
        else (c :: p.1, false))
      ([], false)).1).reverse

/-- Collapse consecutive hyphens into one, written as a pairwise scan: a
hyphen directly followed by another hyphen is dropped.  Independent
implementation of step 2 of the sanitizer as the spec describes it. -/
def specCollapse : List Char → List Char
  | [] => []
  | [c] => [c]
  | a :: b :: r =>
    if a == '-' && b == '-' then specCollapse (b :: r)
    else a :: specCollapse (b :: r)

/-- The sanitizer as described by the (amended) spec wording: replace every
maximal run of the separator characters with one hyphen, collapse
consecutive hyphens, strip a hyphen at the end of the string or immediately
before a string-final newline, lowercase, append the txt extension. -/
def sanitize_spec (title : String) : String :=
  let s1 := specSquash isTitleSep title.data
  let s2 := specCollapse s1
  let s3 := pySubDashEnd s2
  String.mk (s3.map charLowerPy) ++ ".txt"

/-- Separator set of the claim C3 reference algorithm as literally stated:
any whitespace character, or one of the eleven listed punctuation
characters. -/
def claimSep (c : Char) : Bool :=
  isSpacePy c || c == '/' || c == ',' || c == '?' || c == '!' || c == '(' ||
  c == ')' || c == ';' || c == ':' || c == apos || c == '[' || c == ']'

/-- Strip one trailing hyphen, exactly as the words of claim C3 state
(only at the very end of the string). -/
def stripTrailingDash (cs : List Char) : List Char :=
  match cs.getLast? with
  | some '-' => cs.dropLast
  | _ => cs

/-- The reference algorithm of claim C3 as literally stated: replace every
maximal run of whitespace characters or of the listed punctuation with a
single hyphen, collapse consecutive hyphens, strip a trailing hyphen,
lowercase, append the txt extension. -/
def sanitize_claim (title : String) : String :=
  let s1 := specSquash claimSep title.data
  let s2 := specCollapse s1
  let s3 := stripTrailingDash s2
  String.mk (s3.map charLowerPy) ++ ".txt"

/-- Generic model of Python re.sub with empty replacement for the patterns
of the French cleanup table: m is a position matcher that, when the
pattern matches starting at the current position, returns the rest of the
input after the match.  The scan tries every position from left to right
and continues after each (non-overlapping) match, as re.sub does.  Every
matcher used below consumes at least one character on success, so a fuel
equal to the length of the input is sufficient and the fuel-exhausted
branch is unreachable. -/
def subAllF (m : List Char → Option (List Char)) : Nat → List Char → List Char
  | _, [] => []
  | 0, cs => cs
  | fuel + 1, c :: cs =>
    match m (c :: cs) with
    | some rest => subAllF m fuel rest
    | none => c :: subAllF m fuel cs

/-- Does the matcher m fire at some position of the input?  Used to state
when a substitution is a no-op. -/
def hasMatchAux (m : List Char → Option (List Char)) : List Char → Bool
  | [] => false
  | c :: cs => (m (c :: cs)).isSome || hasMatchAux m cs

/-- Run one of the substitutions of the French cleanup table on a string. -/
def pySubAll (m : List Char → Option (List Char)) (s : String) : String :=
  String.mk (subAllF m s.data.length s.data)

/-- The fixed navigation-chapter boilerplate phrase of the table REGICES_FR
(note the trailing space, exactly as in the source pattern). -/
def navPhrase : String :=
  "Début de la boite de navigation du chapitre fin de la boite de navigation du chapitre "

/-- Literal prefix of the limitations pattern of REGICES_FR, up to the
non-greedy dot-star. -/
def limPrefixStr : String :=
  "En raison de limitations techniques, la typographie souhaitable du "

/-- Literal suffix of the limitations pattern of REGICES_FR, after the
non-greedy dot-star (note the trailing space, exactly as in the source
pattern; the apostrophe is written via its code point). -/
def limSuffixStr : String :=
  ", n" ++ String.singleton apos ++ "a pu être restituée correctement ci-dessus. "

/-- Matcher for the navigation pattern: the fixed phrase as a literal. -/
def matchNav (cs : List Char) : Option (List Char) :=
  if navPhrase.data.isPrefixOf cs then some (cs.drop navPhrase.data.length)
  else none

/-- Scan for the literal suffix of the limitations pattern across a
non-greedy dot-star gap: the shortest gap wins, the gap may not contain a
newline (dot does not match newline without DOTALL), and if the suffix is
not found the overall match at this start position fails. -/
def limScan : List Char → Option (List Char)
  | [] => none
  | c :: cs =>
    if limSuffixStr.data.isPrefixOf (c :: cs) then
      some ((c :: cs).drop limSuffixStr.data.length)
    else if c == '\n' then none
    else limScan cs

/-- Matcher for the limitations pattern: the literal prefix, a non-greedy
gap without newline, then the literal suffix. -/
def matchLim (cs : List Char) : Option (List Char) :=
  if limPrefixStr.data.isPrefixOf cs then
    limScan (cs.drop limPrefixStr.data.length)
  else none

/-- The word of the précédent pattern. -/
def precWord : List Char := "Précédent".data

/-- The word of the suivant pattern. -/
def suivWord : List Char := "Suivant".data

/-- Matcher for the précédent pattern (whitespace star, less-than sign,
whitespace plus, the word, whitespace star, then either a pipe or the end
anchor).  Quantifiers are greedy; since none of the bounding literals are
whitespace, backtracking inside a whitespace run can never succeed, so the
maximal runs are the only candidates.  The end anchor after a greedy
whitespace star can only fire at the very end of the input. -/
def matchPrec (cs : List Char) : Option (List Char) :=
  match cs.dropWhile isSpacePy with
  | '<' :: r2 =>
    if (r2.takeWhile isSpacePy).isEmpty then none
    else
      let r3 := r2.dropWhile isSpacePy
      if precWord.isPrefixOf r3 then
        match (r3.drop precWord.length).dropWhile isSpacePy with
        | '|' :: r6 => some r6
        | [] => some []
        | _ => none
      else none
  | _ => none

/-- Tail of the suivant pattern: the word, whitespace plus, greater-than
sign, whitespace star, end anchor. -/
def suivTail (cs : List Char) : Option (List Char) :=
  if suivWord.isPrefixOf cs then
    let r := cs.drop suivWord.length
    if (r.takeWhile isSpacePy).isEmpty then none
    else
      match r.dropWhile isSpacePy with
      | '>' :: r3 => if (r3.dropWhile isSpacePy).isEmpty then some [] else none
      | _ => none
  else none

/-- Matcher for the suivant pattern (whitespace star, pipe star, whitespace
plus, then the tail).  When no pipe is present the whitespace-star must
backtrack one character so that whitespace-plus is non-empty, hence the
leading whitespace run must itself be non-empty; when pipes are present a
fresh whitespace run after them is required. -/
def matchSuiv (cs : List Char) : Option (List Char) :=
  let r1 := cs.dropWhile isSpacePy
  let pp := r1.takeWhile (fun c => c == '|')
  if pp.isEmpty then
    if (cs.takeWhile isSpacePy).isEmpty then none else suivTail r1
  else
    let r2 := r1.dropWhile (fun c => c == '|')
    if (r2.takeWhile isSpacePy).isEmpty then none
    else suivTail (r2.dropWhile isSpacePy)

/-- One rule of the table: remove suivant markers. -/
def sub_suivant (s : String) : String := pySubAll matchSuiv s

/-- One rule of the table: remove précédent markers. -/
def sub_precedent (s : String) : String := pySubAll matchPrec s

/-- One rule of the table: remove the navigation boilerplate phrase. -/
def sub_navigation (s : String) : String := pySubAll matchNav s

/-- One rule of the table: remove the limitations boilerplate sentence. -/
def sub_limitations (s : String) : String := pySubAll matchLim s

/-- clean_text from cirrusextractor.py: the four substitutions of
REGICES_FR applied in the order of the function body, namely suivant,
then précédent, then navigation, then limitations, each operating on the
output of the previous one. -/
def clean_text (text : String) : String :=
  let cs := text.data
  let cs := subAllF matchSuiv cs.length cs
  let cs := subAllF matchPrec cs.length cs
  let cs := subAllF matchNav cs.length cs
  let cs := subAllF matchLim cs.length cs
  String.mk cs

/-- The composition of the four rules in the order claim C5 states it:
navigation, then limitations, then précédent, then suivant. -/
def clean_text_claim_order (text : String) : String :=
  sub_suivant (sub_precedent (sub_limitations (sub_navigation text)))

/-- No rule of the table fires anywhere in the string. -/
def noRuleMatch (s : String) : Bool :=
  !(hasMatchAux matchSuiv s.data) && !(hasMatchAux matchPrec s.data) &&
  !(hasMatchAux matchNav s.data) && !(hasMatchAux matchLim s.data)

/-- JSON values as decoded by json.loads, restricted to the constructors
the dump format uses: strings, integers, and objects (an object is its
field list in insertion order). -/
inductive J where
  | str : String → J
  | num : Int → J
  | obj : List (String × J) → J

/-- Key lookup in a field list; like a Python dict built by json.loads, a
repeated key keeps the last value. -/
def lookupFields : List (String × J) → String → Option J
  | [], _ => none
  | (k, v) :: rest, key =>
    match lookupFields rest key with
    | some r => some r
    | none => if k == key then some v else none

/-- Subscript access as in the Python code: returns none both for a
missing key (KeyError) and for subscripting a non-object with a string
key (TypeError); in either case the Python code raises. -/
def J.lookup : J → String → Option J
  | .obj fs, key => lookupFields fs key
  | _, _ => none

/-- Two-level subscript access, as in the index records. -/
def jGet2 (j : J) (k1 k2 : String) : Option J :=
  (j.lookup k1).bind (fun o => J.lookup o k2)

/-- One line of the dump as seen after readline and json.loads: either a
line that parses to a JSON value, or a line whose bytes are not valid
JSON (json.loads raises).  End of stream is the end of the line list;
readline never fails, it returns an empty result at end of stream, and
json.loads of that empty result raises. -/
inductive LineV where
  | bad : LineV
  | good : J → LineV

/-- Observable state of a process_dump run: the count variable of the
loop, the number of (index, content) pairs successfully decoded, the
files written (path and text) in order, the writes made to standard
output in stream mode, and whether the code ever closed the input byte
source (the source contains no close call, so no constructor of the
model ever sets this flag). -/
structure PDState where
  count : Nat
  pairsN : Nat
  files : List (String × String)
  streamOut : List String
  inputClosed : Bool

/-- Python str.startswith. -/
def pyStartsWith (s pre : String) : Bool :=
  pre.data.isPrefixOf s.data

/-- The characters after the last slash of a character list (first
argument accumulates the current component in reverse). -/
def lastComponent : List Char → List Char → List Char
  | cur, [] => cur.reverse
  | cur, c :: cs =>
    if c == '/' then lastComponent [] cs else lastComponent (c :: cur) cs

/-- os.path.basename for slash-separated paths: the part after the last
slash. -/
def basename (p : String) : String :=
  String.mk (lastComponent [] p.data)

/-- os.path.join for the two-argument uses in the source. -/
def pathJoin (a b : String) : String :=
  if pyStartsWith b "/" then b
  else if a.data.isEmpty then b
  else if a.data.getLast? == some '/' then a ++ b
  else a ++ "/" ++ b

/-- The body of one qualifying-or-not record dispatch of process_dump in
cirrusextractor.py, after both lines of the pair have been decoded.  The
result is ok with the files and stream writes the record produces (empty
lists when the record is filtered out), or error when the Python body
raises (missing key, subscript of a non-object, or an operation on a
value of the wrong type); the error payload carries the writes that
happened before the exception. -/
def procPair (out_path : String) (index content : J) :
    Except (List (String × String) × List String)
      (List (String × String) × List String) :=
  match jGet2 index "index" "_type" with
  | none => .error ([], [])
  | some doc_type =>
    match jGet2 index "index" "_id" with
    | none => .error ([], [])
    | some _ =>
      match content.lookup "language" with
      | none => .error ([], [])
      | some _ =>
        match doc_type with
        | J.str ty =>
          if ty = "page" then
            match content.lookup "namespace" with
            | none => .error ([], [])
            | some (J.num n) =>
              if n = 0 then
                if out_path = "-" then
                  match content.lookup "title" with
                  | some (J.str t) =>
                    match content.lookup "text" with
                    | some (J.str x) => .ok ([], ["\n", t ++ "\n", x ++ "\n"])
                    | _ => .error ([], ["\n", t ++ "\n"])
                  | _ => .error ([], ["\n"])
                else
                  match content.lookup "title" with
                  | some (J.str t) =>
                    let fname := pathJoin out_path (title_to_filename t)
                    if pyStartsWith (basename out_path) "fr" then
                      match content.lookup "text" with
                      | some (J.str x) => .ok ([(fname, clean_text x)], [])
                      | _ => .error ([], [])
                    else
                      match content.lookup "text" with
                      | some (J.str x) => .ok ([(fname, x)], [])
                      | some _ => .error ([(fname, "")], [])
                      | none => .error ([], [])
                  | _ => .error ([], [])
              else .ok ([], [])
            | some _ => .ok ([], [])
          else .ok ([], [])
        | _ => .ok ([], [])

/-- The read loop of process_dump.  Each iteration first increments the
count, then reads a line; end of stream breaks the loop cleanly (second
component true).  Otherwise the line must parse as JSON, a second line
must be available and parse as JSON (a lone trailing line means the
second json.loads receives the empty end-of-stream read and raises), and
the decoded pair is dispatched; any raise aborts the run with the state
at the failure point (second component false).  No branch closes the
input source. -/
def pdLoop (p : String) : List LineV → PDState → PDState × Bool
  | [], s => ({ s with count := s.count + 1 }, true)
  | [_], s => ({ s with count := s.count + 1 }, false)
  | l1 :: l2 :: rest, s =>
    let s1 : PDState := { s with count := s.count + 1 }
    match l1 with
    | .bad => (s1, false)
    | .good ix =>
      match l2 with
      | .bad => (s1, false)
      | .good ct =>
        let s2 : PDState := { s1 with pairsN := s1.pairsN + 1 }
        match procPair p ix ct with
        | .error (fs, ws) =>
          ({ s2 with files := s2.files ++ fs, streamOut := s2.streamOut ++ ws },
           false)
        | .ok (fs, ws) =>
          pdLoop p rest
            { s2 with files := s2.files ++ fs, streamOut := s2.streamOut ++ ws }

/-- Initial state of a run: count starts at zero, nothing decoded or
written, input source open. -/
def initState : PDState :=
  { count := 0, pairsN := 0, files := [], streamOut := [], inputClosed := false }

/-- process_dump from cirrusextractor.py on an already-line-split input:
run the read loop from the initial state.  The Python function itself
returns None; the state is the observable behaviour of the run. -/
def process_dump (lines : List LineV) (out_path : String) : PDState × Bool :=
  pdLoop out_path lines initState

/-- Serialize a list of decoded (index, content) pairs as the alternating
two-line-per-record stream the dump format prescribes. -/
def pairLines : List (J × J) → List LineV
  | [] => []
  | (a, b) :: r => LineV.good a :: LineV.good b :: pairLines r

/-- The option holds a JSON string. -/
def isStrVal : Option J → Bool
  | some (J.str _) => true
  | _ => false

/-- The option holds a JSON integer. -/
def isNumVal : Option J → Bool
  | some (J.num _) => true
  | _ => false

/-- A well-formed index record in the sense of the data model: the index
object carries a string type and an id. -/
def wfIndexJ (j : J) : Bool :=
  isStrVal (jGet2 j "index" "_type") && (jGet2 j "index" "_id").isSome

/-- A well-formed content record in the sense of the data model: integer
namespace, string title, string text, and a language field. -/
def wfContentJ (j : J) : Bool :=
  isNumVal (j.lookup "namespace") && isStrVal (j.lookup "title") &&
  isStrVal (j.lookup "text") && (j.lookup "language").isSome

/-- A well-formed (index, content) pair. -/
def wfPair (pr : J × J) : Bool := wfIndexJ pr.1 && wfContentJ pr.2

/-- Python word scan of dir_name_from_input: re.match anchored at the
start with a lazy word-plus, the literal wik, a greedy word-plus, then a
hyphen; the function returns group 1.  The accumulator holds the
(reversed) characters consumed so far by the lazy part; the lazy part
grows one word character at a time, and at each size the rest of the
pattern is deterministic (a greedy word run must be followed directly by
the hyphen since no shorter run can end at one). -/
def dirScan (acc : List Char) : List Char → Option String
  | [] => none
  | c :: rest =>
    if isWordPy c then
      if ("wik".data).isPrefixOf rest then
        let r3 := rest.drop 3
        match r3.takeWhile isWordPy, r3.dropWhile isWordPy with
        | _ :: _, '-' :: _ =>
          some (String.mk ((c :: acc).reverse ++ "wik".data ++ r3.takeWhile isWordPy))
        | _, _ => dirScan (c :: acc) rest
      else dirScan (c :: acc) rest
    else none

/-- dir_name_from_input from cirrusextractor.py: take the basename of the
input path and match the wiki-name pattern against it; none models the
AttributeError the Python code raises when the match fails. -/
def dir_name_from_input (inp : String) : Option String :=
  dirScan [] (basename inp).data

/-- The index record of the spec test vector: type page, id 1. -/
def ixPage : J :=
  J.obj [("index", J.obj [("_type", J.str "page"), ("_id", J.str "1")])]

/-- The content record of the spec test vector: namespace 0, title Foo,
text Bar, language en. -/
def ctFoo : J :=
  J.obj [("namespace", J.num 0), ("title", J.str "Foo"),
         ("text", J.str "Bar"), ("language", J.str "en")]

/-- The same content record with namespace 1. -/
def ctFooNs1 : J :=
  J.obj [("namespace", J.num 1), ("title", J.str "Foo"),
         ("text", J.str "Bar"), ("language", J.str "en")]

/-- The title of the end-to-end scenario of the spec. -/
def c8title : String :=
  "Chapitre 1: " ++ navPhrase ++ "Contenu"

/-- Content record of the end-to-end scenario: the title is the scenario
title and the text carries the navigation boilerplate. -/
def ctFr : J :=
  J.obj [("namespace", J.num 0), ("title", J.str c8title),
         ("text", J.str c8title), ("language", J.str "fr")]

/-- Input of the C5 counterexample: a suivant marker that only becomes a
string suffix after the navigation phrase behind it is removed. -/
def c5x : String := " | Suivant >" ++ navPhrase

/-- Input of the C6 counterexample: removing the inner occurrence of the
navigation phrase splices its severed halves into a fresh occurrence,
which only a second pass removes. -/
def c6x : String :=
  "Début " ++ navPhrase ++ String.mk (navPhrase.data.drop 6)

set_option maxRecDepth 100000

/-- The fold state machine of specSquash computes the run replacement of
replRunsAux: the accumulated output (reversed) extends by exactly the
characters replRunsAux would emit from the same in-run flag. -/
theorem specSquash_foldl (S : Char → Bool) :
    ∀ (cs : List Char) (acc : List Char) (b : Bool),
      ((cs.foldl
          (fun (p : List Char × Bool) c =>
            if S c then (if p.2 then p.1 else '-' :: p.1, true)
            else (c :: p.1, false))
          (acc, b)).1).reverse
        = acc.reverse ++ replRunsAux S b cs := by
  intro cs
  induction cs with
  | nil => intro acc b; simp [replRunsAux]
  | cons c cs ih =>
    intro acc b
    cases hc : S c with
    | true =>
      cases b with
      | true => simp [List.foldl_cons, hc, replRunsAux, ih]
      | false => simp [List.foldl_cons, hc, replRunsAux, ih]
    | false =>
      cases b with
      | true => simp [List.foldl_cons, hc, replRunsAux, ih]
      | false => simp [List.foldl_cons, hc, replRunsAux, ih]

/-- specSquash computes the same function as the model of the run
substitution. -/
theorem specSquash_eq (S : Char → Bool) (cs : List Char) :
    specSquash S cs = replRunsAux S false cs := by
  have h := specSquash_foldl S cs [] false
  simpa [specSquash] using h

/-- specCollapse computes the same function as the model of the
hyphen-run substitution. -/
theorem specCollapse_eq :
    ∀ cs : List Char, specCollapse cs = replRunsAux (fun c => c == '-') false cs
  | [] => rfl
  | [c] => by
    cases hc : (c == '-') with
    | true => simp_all [specCollapse, replRunsAux]
    | false => simp_all [specCollapse, replRunsAux]
  | a :: b :: r => by
    have ih := specCollapse_eq (b :: r)
    cases ha : (a == '-') with
    | true =>
      cases hb : (b == '-') with
      | true => simp_all [specCollapse, replRunsAux]
      | false => simp_all [specCollapse, replRunsAux]
    | false =>
      cases hb : (b == '-') with
      | true => simp_all [specCollapse, replRunsAux]
      | false => simp_all [specCollapse, replRunsAux]

/-- C3 (amended): title_to_filename computes the spec reference algorithm
with the separator set taken verbatim from the code (space, no-break
space and the listed punctuation, not general whitespace) and with the
strip step removing a hyphen at the end of the string or immediately
before a string-final newline; it is total and deterministic by
construction, and the empty title degrades to the bare txt extension. -/
theorem c3_sanitize_spec_eq :
    (∀ t : String, title_to_filename t = sanitize_spec t) ∧
    title_to_filename "" = ".txt" := by
  constructor
  · intro t
    simp only [title_to_filename, sanitize_spec, specSquash_eq, specCollapse_eq]
  · rfl

/-- C3 counterexample: the claim says every run of whitespace characters
becomes a hyphen, but the character class of the code contains only the
space and no-break space characters, so a tab survives: the code and the
reference algorithm literally stated by the claim disagree on a title
containing a tab. -/
theorem c3_whitespace_cex :
    title_to_filename "a\tb" = "a\tb.txt" ∧
    sanitize_claim "a\tb" = "a-b.txt" ∧
    title_to_filename "a\tb" ≠ sanitize_claim "a\tb" := by
  refine ⟨rfl, rfl, ?_⟩
  decide

/-- C4 (amended): sanitization is deterministic and matches the spec test
vectors except the third one: a leading separator run produces a leading
hyphen which is never stripped, so the lead-trail vector sanitizes with a
leading hyphen. -/
theorem c4_vectors :
    (∀ t : String, title_to_filename t = title_to_filename t) ∧
    title_to_filename "A/B, C!" = "a-b-c.txt" ∧
    title_to_filename "  lead--trail-  " = "-lead-trail.txt" :=
  ⟨fun _ => rfl, rfl, rfl⟩

/-- C4 counterexample: the spec test vector expects lead-trail.txt, but
the code only strips hyphens at the end, so the leading hyphen remains. -/
theorem c4_vector_cex :
    title_to_filename "  lead--trail-  " ≠ "lead-trail.txt" := by
  decide

/-- C5 (amended): clean_text is the sequential application of the four
substitution rules of REGICES_FR, each operating on the output of the
previous one, but in the order of the function body: suivant, then
précédent, then navigation, then limitations. -/
theorem c5_rule_order (x : String) :
    clean_text x =
      sub_limitations (sub_navigation (sub_precedent (sub_suivant x))) := rfl

/-- C5 counterexample: applying the rules in the order the claim states
(navigation, limitations, précédent, suivant) differs from clean_text on
an input where removing the navigation phrase leaves a suivant marker as
a string suffix that only the late suivant pass would then see. -/
theorem c5_order_cex :
    clean_text c5x = " | Suivant >" ∧
    clean_text_claim_order c5x = "" ∧
    clean_text c5x ≠ clean_text_claim_order c5x := by
  refine ⟨rfl, rfl, ?_⟩
  decide

/-- If a matcher fires nowhere in the input, the substitution scan leaves
the input unchanged, for any fuel. -/
theorem subAllF_no_match (m : List Char → Option (List Char)) :
    ∀ (fuel : Nat) (cs : List Char),
      hasMatchAux m cs = false → subAllF m fuel cs = cs := by
  intro fuel
  induction fuel with
  | zero => intro cs h; cases cs <;> simp [subAllF]
  | succ n ih =>
    intro cs h
    cases cs with
    | nil => simp [subAllF]
    | cons c cs =>
      simp only [hasMatchAux, Bool.or_eq_false_iff] at h
      have hm : m (c :: cs) = none := by
        cases hmm : m (c :: cs) with
        | none => rfl
        | some r => rw [hmm] at h; simp at h
      simp [subAllF, hm, ih cs h.2]

/-- C6 (amended): on a string in which none of the four REGICES_FR
patterns has a match, clean_text is the identity and is therefore
idempotent there.  (The universal idempotence the claim states fails: the
substitutions scan the original string left to right, so removing an
occurrence can splice a fresh occurrence together that only a second
application removes; see the counterexample.) -/
theorem c6_idem_clean (x : String) (h : noRuleMatch x = true) :
    clean_text x = x ∧ clean_text (clean_text x) = clean_text x := by
  simp only [noRuleMatch, Bool.and_eq_true, Bool.not_eq_true'] at h
  obtain ⟨⟨⟨hsv, hpc⟩, hnv⟩, hlm⟩ := h
  have hx : clean_text x = x := by
    simp only [clean_text]
    rw [subAllF_no_match matchSuiv _ _ hsv, subAllF_no_match matchPrec _ _ hpc,
        subAllF_no_match matchNav _ _ hnv, subAllF_no_match matchLim _ _ hlm]
  exact ⟨hx, by rw [hx, hx]⟩

/-- C6 counterexample: c6x embeds the navigation phrase inside a split
copy of itself; one pass removes the embedded occurrence and leaves
exactly the phrase, a second pass removes that as well, so clean_text is
not idempotent. -/
theorem c6_idem_cex :
    clean_text c6x = navPhrase ∧
    clean_text navPhrase = "" ∧
    clean_text (clean_text c6x) ≠ clean_text c6x := by
  refine ⟨rfl, rfl, ?_⟩
  decide

/-- C6 witness input evaluation: a plain greeting contains none of the
patterns, so cleanup leaves it unchanged and is idempotent on it. -/
theorem c6_idem_clean_witness :
    noRuleMatch "Bonjour tout le monde" = true ∧
    (clean_text "Bonjour tout le monde" = "Bonjour tout le monde" ∧
     clean_text (clean_text "Bonjour tout le monde") =
       clean_text "Bonjour tout le monde") :=
  ⟨by decide, c6_idem_clean "Bonjour tout le monde" (by decide)⟩

/-- An option passing the string test holds some JSON string. -/
theorem isStrVal_shape (o : Option J) (h : isStrVal o = true) :
    ∃ s, o = some (J.str s) := by
  cases o with
  | none => simp [isStrVal] at h
  | some j => cases j <;> simp_all [isStrVal]

/-- An option passing the integer test holds some JSON integer. -/
theorem isNumVal_shape (o : Option J) (h : isNumVal o = true) :
    ∃ n, o = some (J.num n) := by
  cases o with
  | none => simp [isNumVal] at h
  | some j => cases j <;> simp_all [isNumVal]

/-- On a well-formed pair the record dispatch never raises. -/
theorem procPair_wf_ok (p : String) (ix ct : J) (h : wfPair (ix, ct) = true) :
    ∃ out, procPair p ix ct = Except.ok out := by
  simp only [wfPair, wfIndexJ, wfContentJ, Bool.and_eq_true] at h
  obtain ⟨⟨hty, hid⟩, ⟨⟨hns, hti⟩, htx⟩, hlang⟩ := h
  obtain ⟨tyv, hty2⟩ := isStrVal_shape _ hty
  obtain ⟨idv, hid2⟩ := Option.isSome_iff_exists.mp hid
  obtain ⟨nv, hns2⟩ := isNumVal_shape _ hns
  obtain ⟨tv, hti2⟩ := isStrVal_shape _ hti
  obtain ⟨xv, htx2⟩ := isStrVal_shape _ htx
  obtain ⟨lv, hlang2⟩ := Option.isSome_iff_exists.mp hlang
  unfold procPair
  rw [hty2, hid2, hlang2, hns2, hti2, htx2]
  dsimp only
  split_ifs <;> exact ⟨_, rfl⟩

/-- Running the loop over a block of well-formed pairs followed by a tail
behaves like running the loop on the tail from a state in which the count
and the decoded-pair counter have advanced by the number of pairs, and
the input-closed flag is untouched. -/
theorem pdLoop_wf_append (p : String) :
    ∀ (ps : List (J × J)) (t : List LineV) (s : PDState),
      (∀ pr ∈ ps, wfPair pr = true) →
      ∃ s2 : PDState,
        pdLoop p (pairLines ps ++ t) s = pdLoop p t s2 ∧
        s2.count = s.count + ps.length ∧
        s2.pairsN = s.pairsN + ps.length ∧
        s2.inputClosed = s.inputClosed
  | [], t, s, _ => ⟨s, by simp [pairLines]⟩
  | (ix, ct) :: ps2, t, s, h => by
    obtain ⟨out, hok⟩ := procPair_wf_ok p ix ct (h (ix, ct) (by simp))
    obtain ⟨fs, ws⟩ := out
    obtain ⟨s2, hs2, hc, hn, hcl⟩ :=
      pdLoop_wf_append p ps2 t
        { s with count := s.count + 1, pairsN := s.pairsN + 1,
                 files := s.files ++ fs, streamOut := s.streamOut ++ ws }
        (fun pr hpr => h pr (List.mem_cons_of_mem _ hpr))
    refine ⟨s2, ?_, ?_, ?_, ?_⟩
    · have hshape : pairLines ((ix, ct) :: ps2) ++ t
          = LineV.good ix :: LineV.good ct :: (pairLines ps2 ++ t) := by
        simp [pairLines]
      rw [hshape]
      simp only [pdLoop, hok]
      exact hs2
    · simp only [List.length_cons]
      simp at hc
      omega
    · simp only [List.length_cons]
      simp at hn
      omega
    · simpa using hcl

/-- C1: on a stream of 2N lines that is the alternation of N well-formed
index and content pairs, the read loop of process_dump decodes exactly N
pairs and then terminates cleanly at end of stream; if instead a first
line of a pair is present with no second line (a lone trailing line,
however it parses), or either line of a pair is malformed JSON, the run
aborts as a fatal decode failure with no skipping or resynchronization. -/
theorem c1_pairing (ps : List (J × J)) (p : String)
    (h : ∀ pr ∈ ps, wfPair pr = true) :
    ((process_dump (pairLines ps) p).2 = true ∧
     (process_dump (pairLines ps) p).1.pairsN = ps.length)
  ∧ (∀ l : LineV, (process_dump (pairLines ps ++ [l]) p).2 = false)
  ∧ (∀ rest : List LineV,
       (process_dump (pairLines ps ++ LineV.bad :: rest) p).2 = false)
  ∧ (∀ (j : J) (rest : List LineV),
       (process_dump (pairLines ps ++ LineV.good j :: LineV.bad :: rest) p).2
         = false) := by
  refine ⟨⟨?_, ?_⟩, ?_, ?_, ?_⟩
  · obtain ⟨s2, hs2, _, _, _⟩ := pdLoop_wf_append p ps [] initState h
    rw [process_dump, show pairLines ps = pairLines ps ++ [] by simp, hs2]
    simp [pdLoop]
  · obtain ⟨s2, hs2, _, hn, _⟩ := pdLoop_wf_append p ps [] initState h
    rw [process_dump, show pairLines ps = pairLines ps ++ [] by simp, hs2]
    simp only [pdLoop]
    simpa [initState] using hn
  · intro l
    obtain ⟨s2, hs2, _, _, _⟩ := pdLoop_wf_append p ps [l] initState h
    rw [process_dump, hs2]
    simp [pdLoop]
  · intro rest
    obtain ⟨s2, hs2, _, _, _⟩ := pdLoop_wf_append p ps (LineV.bad :: rest) initState h
    rw [process_dump, hs2]
    cases rest <;> simp [pdLoop]
  · intro j rest
    obtain ⟨s2, hs2, _, _, _⟩ :=
      pdLoop_wf_append p ps (LineV.good j :: LineV.bad :: rest) initState h
    rw [process_dump, hs2]
    simp [pdLoop]

/-- C1 witness: a concrete one-pair stream is decoded as one pair with
clean termination. -/
theorem c1_pairing_witness :
    (∀ pr ∈ [(ixPage, ctFoo)], wfPair pr = true) ∧
    ((process_dump (pairLines [(ixPage, ctFoo)]) "out").2 = true ∧
     (process_dump (pairLines [(ixPage, ctFoo)]) "out").1.pairsN
       = [(ixPage, ctFoo)].length) :=
  ⟨by decide, (c1_pairing [(ixPage, ctFoo)] "out" (by decide)).1⟩

/-- C2: in file mode, a decoded pair with well-typed fields is dispatched
without error and emits exactly when the index type is the string page
and the content namespace is the integer zero; a pair failing the filter
produces no file and no stream write.  On the concrete spec vectors: the
page record with namespace 0, title Foo and text Bar makes the run write
exactly the file foo.txt under the output directory with content Bar,
while the namespace 1 variant makes it write nothing even though the run
still examines that one pair. -/
theorem c2_filter (p : String) (ix ct : J) (idv lv ns : J) (ty t x : String)
    (hp : p ≠ "-")
    (hty : jGet2 ix "index" "_type" = some (J.str ty))
    (hid : jGet2 ix "index" "_id" = some idv)
    (hns : ct.lookup "namespace" = some ns)
    (hti : ct.lookup "title" = some (J.str t))
    (htx : ct.lookup "text" = some (J.str x))
    (hlang : ct.lookup "language" = some lv) :
    (∃ fs, procPair p ix ct = .ok (fs, []) ∧
       (fs ≠ [] ↔ ty = "page" ∧ ns = J.num 0))
  ∧ (process_dump (pairLines [(ixPage, ctFoo)]) "out").1.files
      = [("out/foo.txt", "Bar")]
  ∧ (process_dump (pairLines [(ixPage, ctFooNs1)]) "out").2 = true
  ∧ (process_dump (pairLines [(ixPage, ctFooNs1)]) "out").1.files = []
  ∧ (process_dump (pairLines [(ixPage, ctFooNs1)]) "out").1.pairsN = 1 := by
  refine ⟨?_, rfl, rfl, rfl, rfl⟩
  unfold procPair
  rw [hty, hid, hlang, hns, hti, htx]
  dsimp only
  by_cases hty2 : ty = "page"
  · subst hty2
    simp only [if_pos rfl]
    cases ns with
    | num n =>
      by_cases hn : n = 0
      · subst hn
        simp only [if_pos rfl, if_neg hp]
        by_cases hfr : pyStartsWith (basename p) "fr" = true
        · simp only [if_pos hfr]
          exact ⟨_, rfl, by simp⟩
        · simp only [if_neg hfr]
          exact ⟨_, rfl, by simp⟩
      · simp only [if_neg hn]
        refine ⟨[], rfl, by simp [hn]⟩
    | str sv => exact ⟨[], rfl, by simp⟩
    | obj fsv => exact ⟨[], rfl, by simp⟩
  · simp only [if_neg hty2]
    exact ⟨[], rfl, by simp [hty2]⟩

/-- C2 witness: the filter theorem applied to the namespace 1 vector in
the concrete output directory. -/
theorem c2_filter_witness :
    (("out" : String) ≠ "-") ∧
    (∃ fs, procPair "out" ixPage ctFooNs1 = .ok (fs, []) ∧
       (fs ≠ [] ↔ ("page" : String) = "page" ∧ J.num 1 = J.num 0)) :=
  ⟨by decide,
   (c2_filter "out" ixPage ctFooNs1 (J.str "1") (J.str "en") (J.num 1)
      "page" "Foo" "Bar" (by decide) rfl rfl rfl rfl rfl rfl).1⟩

/-- Every run of the loop increments the count at least once (the count
is bumped at the top of every iteration, including the iteration that
detects end of stream). -/
theorem pdLoop_count_lt (p : String) :
    ∀ (lines : List LineV) (s : PDState), s.count < (pdLoop p lines s).1.count
  | [], s => by simp [pdLoop]
  | [l], s => by simp [pdLoop]
  | l1 :: l2 :: rest, s => by
    cases l1 with
    | bad => simp [pdLoop]
    | good ix =>
      cases l2 with
      | bad => simp [pdLoop]
      | good ct =>
        simp only [pdLoop]
        cases hok : procPair p ix ct with
        | error out => obtain ⟨fs, ws⟩ := out; simp [hok]
        | ok out =>
          obtain ⟨fs, ws⟩ := out
          simp only [hok]
          have hrec := pdLoop_count_lt p rest
            { s with count := s.count + 1, pairsN := s.pairsN + 1,
                     files := s.files ++ fs, streamOut := s.streamOut ++ ws }
          simp at hrec
          omega

/-- C7 (amended): the examined count is strictly increased by every call
of the loop (it is bumped at the top of each iteration), and on a clean
run over N well-formed pairs its final value is N plus one, because the
iteration that discovers end of stream also increments it before reading;
the number of pairs examined is N.  (The Python function itself returns
None rather than the count; the count is observable only through the
optional progress display.) -/
theorem c7_count (ps : List (J × J)) (p : String)
    (h : ∀ pr ∈ ps, wfPair pr = true) :
    (process_dump (pairLines ps) p).1.count = ps.length + 1
  ∧ (process_dump (pairLines ps) p).1.pairsN = ps.length
  ∧ (∀ (lines : List LineV) (s : PDState),
       s.count < (pdLoop p lines s).1.count) := by
  obtain ⟨s2, hs2, hc, hn, _⟩ := pdLoop_wf_append p ps [] initState h
  have hrw : process_dump (pairLines ps) p = pdLoop p [] s2 := by
    rw [process_dump, show pairLines ps = pairLines ps ++ [] by simp, hs2]
  refine ⟨?_, ?_, fun lines s => pdLoop_count_lt p lines s⟩
  · rw [hrw]
    simp only [pdLoop]
    simp [initState] at hc
    simpa using hc
  · rw [hrw]
    simp only [pdLoop]
    simpa [initState] using hn

/-- C7 counterexample: on a one-pair stream the final value of the count
variable is 2 while exactly one record pair was examined, so the count
the loop ends with does not equal the number of pairs examined (and the
Python function returns None, not a count). -/
theorem c7_count_cex :
    (process_dump (pairLines [(ixPage, ctFoo)]) "out").1.count = 2 ∧
    (process_dump (pairLines [(ixPage, ctFoo)]) "out").1.pairsN = 1 ∧
    (process_dump (pairLines [(ixPage, ctFoo)]) "out").1.count ≠
      (process_dump (pairLines [(ixPage, ctFoo)]) "out").1.pairsN :=
  ⟨rfl, rfl, by decide⟩

/-- C7 witness: the count theorem applied to the concrete one-pair
stream. -/
theorem c7_count_witness :
    (∀ pr ∈ [(ixPage, ctFoo)], wfPair pr = true) ∧
    ((process_dump (pairLines [(ixPage, ctFoo)]) "out").1.count
        = [(ixPage, ctFoo)].length + 1
     ∧ (process_dump (pairLines [(ixPage, ctFoo)]) "out").1.pairsN
        = [(ixPage, ctFoo)].length
     ∧ (∀ (lines : List LineV) (s : PDState),
          s.count < (pdLoop "out" lines s).1.count)) :=
  ⟨by decide, c7_count [(ixPage, ctFoo)] "out" (by decide)⟩

/-- C8 (amended): the end-to-end scenario on the fr profile.  The dump
name maps to the wiki directory frwiki; the output path joins to
cirrus/frwiki, whose leaf starts with fr, so French cleanup applies to
the text; the emitted file name is the sanitization of the raw scenario
title (the boilerplate is removed from the text only, never from the
title, so the name keeps the boilerplate words), and the written text has
the boilerplate phrase removed. -/
theorem c8_end_to_end :
    dir_name_from_input "frwiki-20150101-cirrussearch-content.json.gz"
      = some "frwiki" ∧
    pathJoin "cirrus" "frwiki" = "cirrus/frwiki" ∧
    pyStartsWith (basename "cirrus/frwiki") "fr" = true ∧
    clean_text c8title = "Chapitre 1: Contenu" ∧
    (process_dump (pairLines [(ixPage, ctFr)]) "cirrus/frwiki").1.files
      = [("cirrus/frwiki/chapitre-1-début-de-la-boite-de-navigation-du-chapitre-fin-de-la-boite-de-navigation-du-chapitre-contenu.txt",
          "Chapitre 1: Contenu")] ∧
    (process_dump (pairLines [(ixPage, ctFr)]) "cirrus/frwiki").2 = true :=
  ⟨rfl, rfl, rfl, rfl, rfl, rfl⟩

/-- C8 counterexample: sanitizing the scenario title does not give the
file name the claim states, because title_to_filename never removes the
boilerplate from the title. -/
theorem c8_filename_cex :
    title_to_filename c8title
      = "chapitre-1-début-de-la-boite-de-navigation-du-chapitre-fin-de-la-boite-de-navigation-du-chapitre-contenu.txt" ∧
    title_to_filename c8title ≠ "chapitre-1-contenu.txt" := by
  refine ⟨rfl, ?_⟩
  decide

/-- The loop never touches the input-closed flag: no branch of the code
contains a close of the input byte source. -/
theorem pdLoop_inputClosed (p : String) :
    ∀ (lines : List LineV) (s : PDState),
      (pdLoop p lines s).1.inputClosed = s.inputClosed
  | [], s => by simp [pdLoop]
  | [l], s => by simp [pdLoop]
  | l1 :: l2 :: rest, s => by
    cases l1 with
    | bad => simp [pdLoop]
    | good ix =>
      cases l2 with
      | bad => simp [pdLoop]
      | good ct =>
        simp only [pdLoop]
        cases hok : procPair p ix ct with
        | error out => obtain ⟨fs, ws⟩ := out; simp [hok]
        | ok out =>
          obtain ⟨fs, ws⟩ := out
          simp only [hok]
          have hrec := pdLoop_inputClosed p rest
            { s with count := s.count + 1, pairsN := s.pairsN + 1,
                     files := s.files ++ fs, streamOut := s.streamOut ++ ws }
          simpa using hrec

/-- C9 (amended): no exit path of process_dump closes the input byte
source; both clean end-of-stream termination and a fatal decode failure
leave the source open (the code contains no close call, and release is
left to the interpreter outside the modelled program). -/
theorem c9_never_closes (lines : List LineV) (p : String) :
    (process_dump lines p).1.inputClosed = false := by
  have h := pdLoop_inputClosed p lines initState
  simpa [process_dump, initState] using h

/-- C9 counterexample: on the empty stream the run terminates cleanly
with the source not closed, and on a malformed one-line stream the run
fails with the source not closed, contradicting the claim that every exit
path closes the source before returning or propagating. -/
theorem c9_close_cex :
    ((process_dump [] "out").2 = true ∧
     (process_dump [] "out").1.inputClosed = false) ∧
    ((process_dump [LineV.bad] "out").2 = false ∧
     (process_dump [LineV.bad] "out").1.inputClosed = false) :=
  ⟨⟨rfl, rfl⟩, ⟨rfl, rfl⟩⟩

/-- C10: in file mode a qualifying, well-typed record is written with
French cleanup applied exactly when the leaf name of the output directory
starts with the two letters fr (whatever the rest of the leaf is); for
any other leaf the text is written unmodified. -/
theorem c10_fr_branch (p : String) (ix ct : J) (idv lv : J) (t x : String)
    (hp : p ≠ "-")
    (hty : jGet2 ix "index" "_type" = some (J.str "page"))
    (hid : jGet2 ix "index" "_id" = some idv)
    (hns : ct.lookup "namespace" = some (J.num 0))
    (hti : ct.lookup "title" = some (J.str t))
    (htx : ct.lookup "text" = some (J.str x))
    (hlang : ct.lookup "language" = some lv) :
    procPair p ix ct =
      .ok ([(pathJoin p (title_to_filename t),
             if pyStartsWith (basename p) "fr" then clean_text x else x)],
           []) := by
  unfold procPair
  rw [hty, hid, hlang, hns, hti, htx]
  dsimp only
  rw [if_pos rfl, if_pos rfl, if_neg hp]
  by_cases hfr : pyStartsWith (basename p) "fr" = true
  · rw [if_pos hfr, if_pos hfr]
  · rw [if_neg hfr, if_neg hfr]

/-- C10 witness: an output directory whose leaf merely begins with fr
(and names no French wiki) still triggers cleanup. -/
theorem c10_fr_branch_witness :
    (("friuli" : String) ≠ "-") ∧
    procPair "friuli" ixPage ctFoo =
      .ok ([(pathJoin "friuli" (title_to_filename "Foo"),
             if pyStartsWith (basename "friuli") "fr" then clean_text "Bar"
             else "Bar")],
           []) :=
  ⟨by decide,
   c10_fr_branch "friuli" ixPage ctFoo (J.str "1") (J.str "en") "Foo" "Bar"
     (by decide) rfl rfl rfl rfl rfl rfl⟩
